import Mathlib

/-!
Verification development for the stream ingestion / enrichment pipeline of
the people service (Go).  The definitions below are shallow embeddings of
the source functions:

* models.FullName and its IsValid method (stream validator),
* models.Entry and its IsValid method (persistence-facing validator),
* the goroutines age, gender, nationality and the coordinator Entry.Enrich
  (fan-out over a buffered error channel of capacity 1),
* handlers.ProcessMsg (the per-message pipeline driver).

Modelling conventions:

* Strings are Lean strings, i.e. sequences of Unicode scalar values; the Go
  expression len(s) is the UTF-8 byte size, embedded as String.utf8ByteSize.
* The Go regexps are embedded as rune-class predicates: MatchString with
  the anchored pattern of Latin and Cyrillic letters holds exactly when the
  string is a nonempty run of such letters, and the two-uppercase-letter
  country pattern holds exactly when the string is two runes in the A-Z
  range.
* JSON values decoded into Go interface values are embedded as the GoVal
  inductive; JSON numbers are embedded as integers (the lookups in question
  deal in integral values and no claim depends on fractional parts).
* The outcome of one HTTP lookup (the apiReq helper) is an input of the
  model: either a transport or decode error, or the decoded object body.
* A panic of a goroutine aborts the whole Go process; it is embedded as the
  none outcome of the coordinator and of the driver.
-/

namespace People

/-- Rune class of the Go pattern of Latin letters a-z, A-Z and Cyrillic
letters U+0430 to U+044F and U+0410 to U+042F, matched rune-wise. -/
def isNameChar (c : Char) : Bool :=
  ('a' ≤ c && c ≤ 'z') || ('A' ≤ c && c ≤ 'Z') ||
    ('а' ≤ c && c ≤ 'я') || ('А' ≤ c && c ≤ 'Я')

/-- Embedding of MatchString for the anchored name pattern: a nonempty run
of Latin or Cyrillic letters. -/
def matchesNamePattern (s : String) : Bool :=
  !s.data.isEmpty && s.data.all isNameChar

/-- Embedding of MatchString for the anchored country pattern: exactly two
uppercase Latin letters. -/
def matchesCountryPattern (s : String) : Bool :=
  s.data.length == 2 && s.data.all (fun c => 'A' ≤ c && c ≤ 'Z')

/-- Embedding of strings.Join. -/
def goJoin (sep : String) : List String → String
  | [] => ""
  | [m] => m
  | m :: rest => m ++ sep ++ goJoin sep rest

/-- models.FullName: the unit parsed from one Kafka message. -/
structure FullName where
  Name : String
  Surname : String
  Patronymic : String
  Error : String
deriving DecidableEq

/-- The errContent list built by the IsValid method of models.FullName.
Each of the two switch statements of the source appends the first matching
violation of its field only. -/
def FullName.errContent (e : FullName) : List String :=
  (if e.Name = "" then ["name cannot be empty"]
   else if e.Name.utf8ByteSize < 2 then ["name is too short"]
   else if e.Name.utf8ByteSize > 50 then ["name is too long"]
   else if !matchesNamePattern e.Name then ["name contains invalid characters"]
   else [])
  ++
  (if e.Surname = "" then ["surname cannot be empty"]
   else if e.Surname.utf8ByteSize < 2 then ["surname is too short"]
   else if e.Surname.utf8ByteSize > 50 then ["surname is too long"]
   else if !matchesNamePattern e.Surname then ["surname contains invalid characters"]
   else [])

/-- models.FullName.IsValid: the stream validator; returns the empty cause
string when there is no violation, else the comma-joined violations. -/
def FullName.IsValid (e : FullName) : String :=
  if e.errContent.length = 0 then "" else goJoin ", " e.errContent

/-- One invocation of the IsValid method seen as a state transformer on its
receiver: the source reads the receiver and writes none of its fields, so
the run returns the cause string together with the unchanged receiver. -/
def FullName.IsValidRun (e : FullName) : String × FullName := (e.IsValid, e)

/-- models.Entry: the persisted record.  The bookkeeping fields inherited
from gorm.Model and the store assignment of ID on creation are not part of
the model; Age is the Go uint8 value. -/
structure Entry where
  ID : Nat
  Name : String
  Surname : String
  Patronymic : String
  Age : Nat
  Gender : String
  Nationality : String
deriving DecidableEq

/-- The errContent list built by the IsValid method of models.Entry. -/
def Entry.errContent (e : Entry) : List String :=
  (if e.Name = "" then ["name cannot be empty"]
   else if e.Name.utf8ByteSize < 2 then ["name is too short"]
   else if e.Name.utf8ByteSize > 50 then ["name is too long"]
   else if !matchesNamePattern e.Name then ["name contains invalid characters"]
   else [])
  ++
  (if e.Surname = "" then ["surname cannot be empty"]
   else if e.Surname.utf8ByteSize < 2 then ["surname is too short"]
   else if e.Surname.utf8ByteSize > 50 then ["surname is too long"]
   else if !matchesNamePattern e.Surname then ["surname contains invalid characters"]
   else [])
  ++
  (if e.Age < 1 ∨ e.Age > 120 then ["age contains invalid data"] else [])
  ++
  (if e.Gender = "" then ["gender cannot be empty"]
   else if e.Gender ≠ "male" ∧ e.Gender ≠ "female" then
     ["only “male” or “female” gender is available"]
   else [])
  ++
  (if e.Nationality = "" then ["nationality cannot be empty"]
   else if !matchesCountryPattern e.Nationality then
     ["nationality contains invalid data (example: RU, US)"]
   else [])

/-- models.Entry.IsValid: the persistence-facing validator; none embeds the
nil error of the source, some the joined cause. -/
def Entry.IsValid (e : Entry) : Option String :=
  if e.errContent.length = 0 then none else some (goJoin ", " e.errContent)

/-- Go interface values produced by encoding/json: null, booleans, numbers
(embedded as integers, see the header), strings, arrays and objects. -/
inductive GoVal where
  | vNull
  | vBool (b : Bool)
  | vNum (n : Int)
  | vStr (s : String)
  | vArr (xs : List GoVal)
  | vObj (fields : List (String × GoVal))

/-- Comma-ok lookup on a decoded Go map; the nil map is the empty list. -/
def goLookup (fields : List (String × GoVal)) (key : String) : Option GoVal :=
  (fields.find? (fun kv => kv.fst == key)).map (fun kv => kv.snd)

/-- The float64 type assertion of the source on a decoded value. -/
def GoVal.asFloat : GoVal → Option Int
  | .vNum n => some n
  | _ => none

/-- The string type assertion of the source on a decoded value. -/
def GoVal.asString : GoVal → Option String
  | .vStr s => some s
  | _ => none

/-- The interface-slice type assertion of the source on a decoded value. -/
def GoVal.asArr : GoVal → Option (List GoVal)
  | .vArr xs => some xs
  | _ => none

/-- The map type assertion of the source on a decoded value. -/
def GoVal.asObj : GoVal → Option (List (String × GoVal))
  | .vObj fs => some fs
  | _ => none

/-- Go conversion of the decoded number to uint8 (wraparound for values out
of range; no claim depends on the out-of-range behaviour). -/
def goUint8 (n : Int) : Nat := (n % 256).toNat

/-- Outcome of the apiReq helper for one lookup: either a transport or
decode error (the reqData map then stays nil), or the decoded object body.
Decoding a JSON null leaves the map nil as well; that case is embedded as a
body with no fields. -/
inductive ApiResp where
  | fail (msg : String)
  | body (fields : List (String × GoVal))

/-- The error, if any, a goroutine sends because apiReq itself failed.
The source does not return after this send. -/
def ApiResp.errSends : ApiResp → List String
  | .fail m => [m]
  | .body _ => []

/-- The decoded field map a goroutine reads after apiReq. -/
def ApiResp.fieldsOf : ApiResp → List (String × GoVal)
  | .fail _ => []
  | .body fs => fs

/-- Observable behaviour of one lookup goroutine: the error messages it
attempts to send on the shared channel, in program order; the value it
writes through its result pointer (meaningful when it does not panic); and
whether it panics, which aborts the whole process. -/
structure GoRun (α : Type) where
  sends : List String
  write : α
  crash : Bool

/-- Goroutine age of the source: a failed apiReq sends its error and falls
through; a missing or non-numeric age field sends a second error; the
result pointer is always written with uint8 of target, target being zero
when the assertion failed.  This goroutine never panics. -/
def ageRun (r : ApiResp) : GoRun Nat :=
  match (goLookup r.fieldsOf "age").bind GoVal.asFloat with
  | some n => { sends := r.errSends, write := goUint8 n, crash := false }
  | none =>
      { sends := r.errSends ++ ["age data not found"], write := goUint8 0,
        crash := false }

/-- Goroutine gender of the source, analogous to age; the zero value of the
string type is the empty string.  This goroutine never panics. -/
def genderRun (r : ApiResp) : GoRun String :=
  match (goLookup r.fieldsOf "gender").bind GoVal.asString with
  | some g => { sends := r.errSends, write := g, crash := false }
  | none =>
      { sends := r.errSends ++ ["gender data not found"], write := "",
        crash := false }

/-- Goroutine nationality of the source, translated branch by branch.  The
source sends an error when the country list is absent, malformed or empty
but does not return, and then evaluates the first list element: on an
absent or empty list this indexing panics (index out of range), aborting
the process.  When the first element is not a map, the nil-map lookup of
country_id fails in turn and a further error is sent; the result pointer is
then written with the empty string. -/
def natRun (r : ApiResp) : GoRun String :=
  match (goLookup r.fieldsOf "country").bind GoVal.asArr with
  | none =>
      { sends := r.errSends ++ ["country data not found"], write := "",
        crash := true }
  | some [] =>
      { sends := r.errSends ++ ["country data not found"], write := "",
        crash := true }
  | some (c :: _) =>
      match c.asObj with
      | none =>
          { sends := r.errSends ++ ["invalid country data", "country ID not found"],
            write := "", crash := false }
      | some first =>
          match (goLookup first "country_id").bind GoVal.asString with
          | none =>
              { sends := r.errSends ++ ["country ID not found"], write := "",
                crash := false }
          | some cid => { sends := r.errSends, write := cid, crash := false }

/-- models.Entry.Enrich on given service responses, evaluated under the
canonical schedule in which pending channel sends complete before a panic
fires and the error the coordinator receives first is the first attempted
send in the textual goroutine order age, gender, nationality.  A panic of
the nationality goroutine aborts the process, embedded as none.  Otherwise
the coordinator returns the written-through receiver together with the
first received error, or no error when no goroutine sent one; all three
result pointers are written also on the failure path.  The claims settled
against this function do not depend on the choice of schedule; the
schedule-sensitive claims are settled against the channel model below. -/
def Entry.Enrich (e : Entry) (name : String) (ra rg rn : ApiResp) :
    Option (Entry × Option String) :=
  let A := ageRun ra
  let G := genderRun rg
  let N := natRun rn
  if N.crash then none
  else
    some ({ e with Age := A.write, Gender := G.write, Nationality := N.write },
      (A.sends ++ G.sends ++ N.sends).head?)

/-- One inbound Kafka payload as seen through json.Unmarshal: either it
cannot be decoded into a FullName, or it decodes to one; the raw bytes are
kept in both cases because the driver re-emits them on some paths. -/
inductive InMsg where
  | malformed (raw : String)
  | parsed (fn : FullName) (raw : String)

/-- One message published on the failure topic: either the original raw
payload forwarded verbatim, or the JSON encoding of the annotated FullName.
json.Marshal of a struct with only string fields cannot fail, so the
marshal-failure fallback branches of the source are unreachable and the
encoding is embedded as the record itself. -/
inductive FailPayload where
  | rawBytes (raw : String)
  | annotated (fn : FullName)
deriving DecidableEq

/-- Discriminator: is this failure-topic message an annotated record? -/
def FailPayload.isAnnotated : FailPayload → Bool
  | .rawBytes _ => false
  | .annotated _ => true

/-- Result of the db.C.Create call. -/
inductive StoreResult where
  | ok
  | fail (msg : String)

/-- Externally visible effects of one ProcessMsg run: the messages produced
on the failure topic and the rows created in the store.  The store-assigned
ID and the non-fatal cache flush are not tracked. -/
structure Effects where
  failMsgs : List FailPayload
  created : List Entry
deriving DecidableEq

/-- handlers.ProcessMsg: deserialize, validate, enrich, persist.  An
undecodable payload is forwarded verbatim to the failure topic; a
validation, enrichment or store failure publishes the annotated record; a
successful run creates exactly one row and publishes nothing.  The none
outcome embeds the process abort caused by a panicking enrichment
goroutine: no terminal effect is produced. -/
def ProcessMsg (m : InMsg) (ra rg rn : ApiResp) (store : StoreResult) :
    Option Effects :=
  match m with
  | .malformed raw => some { failMsgs := [.rawBytes raw], created := [] }
  | .parsed dataMsg _raw =>
    let result := dataMsg.IsValid
    if result ≠ "" then
      some { failMsgs := [.annotated { dataMsg with Error := result }],
             created := [] }
    else
      let entry : Entry :=
        { ID := 0, Name := dataMsg.Name, Surname := dataMsg.Surname,
          Patronymic := dataMsg.Patronymic, Age := 0, Gender := "",
          Nationality := "" }
      match entry.Enrich entry.Name ra rg rn with
      | none => none
      | some (_, some err) =>
          some { failMsgs := [.annotated
                   { dataMsg with Error := "Failed to enrich data from API: " ++ err }],
                 created := [] }
      | some (entry2, none) =>
          match store with
          | .fail serr =>
              some { failMsgs := [.annotated
                       { dataMsg with Error := "Failed to create entry: " ++ serr }],
                     created := [] }
          | .ok => some { failMsgs := [], created := [entry2] }

/-- Rune-wise test that one character list starts with another. -/
def prefOf : List Char → List Char → Bool
  | [], _ => true
  | _ :: _, [] => false
  | a :: as, b :: bs => a == b && prefOf as bs

/-- Rune-wise test that the first character list occurs contiguously in the
second. -/
def subOf (sub : List Char) : List Char → Bool
  | [] => sub.isEmpty
  | c :: rest => prefOf sub (c :: rest) || subOf sub rest

/-- Whether the string sub occurs contiguously in the string s; used to
state that a cause string mentions, or fails to mention, a given rule or
attribute. -/
def mentionsB (s sub : String) : Bool := subOf sub.data s.data

lemma str_data_append (a b : String) : (a ++ b).data = a.data ++ b.data := rfl

lemma goJoin_ne_empty {m : String} (sep : String) (l : List String)
    (hm : m ≠ "") : goJoin sep (m :: l) ≠ "" := by
  have hd : m.data ≠ [] := fun h => hm (String.ext h)
  cases l with
  | nil => simpa [goJoin] using hm
  | cons b bs =>
      intro h
      have huf : goJoin sep (m :: b :: bs) = m ++ sep ++ goJoin sep (b :: bs) := rfl
      have hdata : (m ++ sep ++ goJoin sep (b :: bs)).data = [] := by
        rw [← huf, h]
      rw [str_data_append, str_data_append] at hdata
      simp at hdata
      exact hd hdata.1

lemma fieldTree_eq_nil_iff (s m1 m2 m3 m4 : String) :
    (if s = "" then [m1]
     else if s.utf8ByteSize < 2 then [m2]
     else if s.utf8ByteSize > 50 then [m3]
     else if !matchesNamePattern s then [m4]
     else []) = ([] : List String)
    ↔ (s ≠ "" ∧ 2 ≤ s.utf8ByteSize ∧ s.utf8ByteSize ≤ 50 ∧
        matchesNamePattern s = true) := by
  split <;> rename_i h1
  · simp [h1]
  · split <;> rename_i h2
    · simp [h1]; omega
    · split <;> rename_i h3
      · simp [h1]; omega
      · split <;> rename_i h4
        · simp_all
        · simp_all

lemma fullName_errContent_eq_nil_iff (e : FullName) :
    e.errContent = [] ↔
      (e.Name ≠ "" ∧ 2 ≤ e.Name.utf8ByteSize ∧ e.Name.utf8ByteSize ≤ 50 ∧
        matchesNamePattern e.Name = true ∧
       e.Surname ≠ "" ∧ 2 ≤ e.Surname.utf8ByteSize ∧
        e.Surname.utf8ByteSize ≤ 50 ∧ matchesNamePattern e.Surname = true) := by
  unfold FullName.errContent
  rw [List.append_eq_nil, fieldTree_eq_nil_iff, fieldTree_eq_nil_iff]
  tauto

lemma fullName_errContent_mem_ne (e : FullName) :
    ∀ x ∈ e.errContent, x ≠ "" := by
  intro x hx
  unfold FullName.errContent at hx
  rcases List.mem_append.mp hx with h | h <;> (repeat' split at h) <;> simp_all

lemma fullName_isValid_eq_empty_iff (e : FullName) :
    e.IsValid = "" ↔ e.errContent = [] := by
  unfold FullName.IsValid
  split <;> rename_i h
  · simp [List.length_eq_zero.mp h]
  · have hne : e.errContent ≠ [] := by
      intro hh; exact h (by simp [hh])
    obtain ⟨m, l, hml⟩ := List.exists_cons_of_ne_nil hne
    have hm : m ≠ "" :=
      fullName_errContent_mem_ne e m (by rw [hml]; exact List.mem_cons_self m l)
    rw [hml]
    exact iff_of_false (goJoin_ne_empty _ _ hm) (by simp)

/-- C8: the stream validator returns the empty cause string exactly when
both name and surname are nonempty, have UTF-8 byte length between 2 and 50
(the Go len function measures bytes), and consist exclusively of Latin or
Cyrillic letters; letters-only entails the absence of digits, punctuation
and surrounding whitespace. -/
theorem fullName_isValid_empty_characterization (e : FullName) :
    e.IsValid = "" ↔
      (e.Name ≠ "" ∧ 2 ≤ e.Name.utf8ByteSize ∧ e.Name.utf8ByteSize ≤ 50 ∧
        e.Name.data.all isNameChar = true ∧
       e.Surname ≠ "" ∧ 2 ≤ e.Surname.utf8ByteSize ∧
        e.Surname.utf8ByteSize ≤ 50 ∧ e.Surname.data.all isNameChar = true) := by
  rw [fullName_isValid_eq_empty_iff, fullName_errContent_eq_nil_iff]
  have conv : ∀ s : String, s ≠ "" →
      (matchesNamePattern s = true ↔ s.data.all isNameChar = true) := by
    intro s hs
    cases hd : s.data with
    | nil => exact absurd (String.ext hd) hs
    | cons c cs => simp [matchesNamePattern, hd]
  constructor
  · rintro ⟨h1, h2, h3, h4, h5, h6, h7, h8⟩
    exact ⟨h1, h2, h3, (conv _ h1).mp h4, h5, h6, h7, (conv _ h5).mp h8⟩
  · rintro ⟨h1, h2, h3, h4, h5, h6, h7, h8⟩
    exact ⟨h1, h2, h3, (conv _ h1).mpr h4, h5, h6, h7, (conv _ h5).mpr h8⟩

/-- C9: invoking the stream validator twice on the same record yields the
same cause string; the method writes no field of its receiver, so the
second invocation sees the identical record. -/
theorem fullName_isValid_idempotent (e : FullName) :
    (FullName.IsValidRun (FullName.IsValidRun e).2).1 =
      (FullName.IsValidRun e).1 := rfl

/-- All rules the name violates, in check order, read independently of one
another (the reading of the claim of C7). -/
def nameViolations (s : String) : List String :=
  (if s = "" then ["name cannot be empty"] else []) ++
  (if s.utf8ByteSize < 2 then ["name is too short"] else []) ++
  (if s.utf8ByteSize > 50 then ["name is too long"] else []) ++
  (if !matchesNamePattern s then ["name contains invalid characters"] else [])

/-- All rules the surname violates, in check order, read independently. -/
def surnameViolations (s : String) : List String :=
  (if s = "" then ["surname cannot be empty"] else []) ++
  (if s.utf8ByteSize < 2 then ["surname is too short"] else []) ++
  (if s.utf8ByteSize > 50 then ["surname is too long"] else []) ++
  (if !matchesNamePattern s then ["surname contains invalid characters"] else [])

lemma fieldTree_eq_take (s m1 m2 m3 m4 : String) :
    (if s = "" then [m1]
     else if s.utf8ByteSize < 2 then [m2]
     else if s.utf8ByteSize > 50 then [m3]
     else if !matchesNamePattern s then [m4]
     else [])
    = ((if s = "" then [m1] else []) ++
       (if s.utf8ByteSize < 2 then [m2] else []) ++
       (if s.utf8ByteSize > 50 then [m3] else []) ++
       (if !matchesNamePattern s then [m4] else [])).take 1 := by
  by_cases h1 : s = "" <;> by_cases h2 : s.utf8ByteSize < 2 <;>
    by_cases h3 : s.utf8ByteSize > 50 <;>
    by_cases h4 : matchesNamePattern s = true <;>
    simp [h1, h2, h3, h4]

/-- C7 (amended): the stream validator collects at most one violation per
field: for each of name and surname only the first violated rule in the
order nonempty, too short, too long, invalid characters enters the cause,
and the final cause string is the comma-joined concatenation of these, the
name violation before the surname violation. -/
theorem fullName_isValid_first_violation_per_field (e : FullName) :
    e.IsValid =
      (let l := (nameViolations e.Name).take 1 ++
                (surnameViolations e.Surname).take 1
       if l.length = 0 then "" else goJoin ", " l) := by
  unfold FullName.IsValid FullName.errContent nameViolations surnameViolations
  rw [fieldTree_eq_take e.Name, fieldTree_eq_take e.Surname]

/-- C7 counterexample: on the record with name 1 and surname Ivanov the
length rule and the alphabetic rule are both violated for the name, yet the
returned cause consists of the length violation alone: the cause does not
mention the alphabetic violation, so the validator does not collect all
applicable violations. -/
theorem fullName_isValid_misses_applicable_violation :
    FullName.IsValid ⟨"1", "Ivanov", "", ""⟩ = "name is too short" ∧
    matchesNamePattern "1" = false ∧
    mentionsB "name is too short" "name contains invalid characters" = false := by
  exact ⟨by decide, by decide, by decide⟩

/-- State of the fan-out window of Entry.Enrich: the buffered error channel
of capacity one, the value received by the coordinator (the range loop of
the source returns after the first received error, so at most one receive
ever happens), and the sends still pending in each goroutine, in program
order. -/
structure CState where
  buf : Option String
  got : Option String
  pA : List String
  pG : List String
  pN : List String
deriving DecidableEq

/-- One scheduler step of the fan-out window: a goroutine completes its
next pending send, possible only while the buffer slot is free, or the
coordinator receives the buffered message, possible only once. -/
inductive CStep : CState → CState → Prop where
  | sendA (s : CState) (m : String) (r : List String) :
      s.buf = none → s.pA = m :: r →
      CStep s { buf := some m, got := s.got, pA := r, pG := s.pG, pN := s.pN }
  | sendG (s : CState) (m : String) (r : List String) :
      s.buf = none → s.pG = m :: r →
      CStep s { buf := some m, got := s.got, pA := s.pA, pG := r, pN := s.pN }
  | sendN (s : CState) (m : String) (r : List String) :
      s.buf = none → s.pN = m :: r →
      CStep s { buf := some m, got := s.got, pA := s.pA, pG := s.pG, pN := r }
  | recv (s : CState) (m : String) :
      s.buf = some m → s.got = none →
      CStep s { buf := none, got := some m, pA := s.pA, pG := s.pG, pN := s.pN }

/-- Reachability of the fan-out window under an arbitrary schedule. -/
abbrev Reaches : CState → CState → Prop := Relation.ReflTransGen CStep

/-- Initial fan-out state of Entry.Enrich for given responses: the buffer
is free, nothing has been received and every goroutine still has all of
its sends pending. -/
def enrichInit (ra rg rn : ApiResp) : CState :=
  { buf := none, got := none, pA := (ageRun ra).sends,
    pG := (genderRun rg).sends, pN := (natRun rn).sends }

def optCount : Option String → Nat
  | none => 0
  | some _ => 1

/-- Number of channel sends still pending across the three goroutines. -/
def sendsPending (s : CState) : Nat :=
  s.pA.length + s.pG.length + s.pN.length

lemma cstep_conserves {s t : CState} (h : CStep s t) :
    sendsPending t + optCount t.buf + optCount t.got =
      sendsPending s + optCount s.buf + optCount s.got := by
  cases h with
  | sendA m r hb hp =>
      simp only [sendsPending, optCount, hb, hp, List.length_cons]; omega
  | sendG m r hb hp =>
      simp only [sendsPending, optCount, hb, hp, List.length_cons]; omega
  | sendN m r hb hp =>
      simp only [sendsPending, optCount, hb, hp, List.length_cons]; omega
  | recv m hb hg =>
      simp only [sendsPending, optCount, hb, hg]

lemma reaches_conserves {s t : CState} (h : Reaches s t) :
    sendsPending t + optCount t.buf + optCount t.got =
      sendsPending s + optCount s.buf + optCount s.got := by
  induction h with
  | refl => rfl
  | tail hr hstep ih => rw [cstep_conserves hstep]; exact ih

/-- The fan-out state of Entry.Enrich when both the age and the gender
lookup fail at the transport level while the nationality lookup succeeds:
the two failing goroutines attempt two sends each (the apiReq error and,
the source not returning after it, the missing-field error). -/
def twoFailInit : CState :=
  enrichInit (.fail "request failed") (.fail "request failed")
    (.body [("country", GoVal.vArr [GoVal.vObj [("country_id", GoVal.vStr "RU")]])])

/-- C2: refuted on the code.  With two simultaneously failing lookups the
four attempted sends exceed what the capacity-one channel and the single
receive of the coordinator can absorb, so every reachable state of the
fan-out window keeps at least two sends pending: at least one failing
goroutine can never complete its report and is blocked forever, and the
coordinator never waits for it to finish. -/
theorem enrich_two_failures_leave_blocked_sends (s : CState)
    (h : Reaches twoFailInit s) : 2 ≤ sendsPending s := by
  have hc := reaches_conserves h
  have h4 : sendsPending twoFailInit + optCount twoFailInit.buf +
      optCount twoFailInit.got = 4 := by decide
  have hb : optCount s.buf ≤ 1 := by cases s.buf <;> simp [optCount]
  have hg : optCount s.got ≤ 1 := by cases s.got <;> simp [optCount]
  omega

/-- C2 witness: the theorem applied to the initial state itself. -/
theorem enrich_two_failures_leave_blocked_sends_w :
    2 ≤ sendsPending twoFailInit :=
  enrich_two_failures_leave_blocked_sends twoFailInit Relation.ReflTransGen.refl

/-- The fan-out state of Entry.Enrich when the age and the gender response
bodies decode but lack the expected field, and nationality succeeds: each
failing goroutine attempts exactly one send. -/
def twoFieldFailInit : CState :=
  enrichInit (.body []) (.body [])
    (.body [("country", GoVal.vArr [GoVal.vObj [("country_id", GoVal.vStr "RU")]])])

lemma twoFieldFail_inv {s : CState} (h : Reaches twoFieldFailInit s) :
    (s.buf = none ∨ s.buf = some "age data not found" ∨
      s.buf = some "gender data not found") ∧
    (s.got = none ∨ s.got = some "age data not found" ∨
      s.got = some "gender data not found") ∧
    (s.pA = ["age data not found"] ∨ s.pA = []) ∧
    (s.pG = ["gender data not found"] ∨ s.pG = []) ∧
    s.pN = [] := by
  induction h with
  | refl => exact ⟨Or.inl rfl, Or.inl rfl, Or.inl rfl, Or.inl rfl, rfl⟩
  | tail hr hstep ih => cases hstep <;> simp_all

/-- C1: refuted on the code.  When the age and the gender lookup both fail
while the nationality lookup succeeds, every complete run of the fan-out
window (a reachable state with no step enabled) ends with the coordinator
having received exactly one error message, and that message mentions at
most one of the two failing attributes, never both: the returned failure
does not aggregate every failing attribute. -/
theorem enrich_failure_not_aggregated (s : CState)
    (h : Reaches twoFieldFailInit s) (hmax : ∀ t, ¬ CStep s t) :
    ∃ m, s.got = some m ∧
      (mentionsB m "age" && mentionsB m "gender") = false := by
  obtain ⟨ibuf, igot, ipA, ipG, ipN⟩ := twoFieldFail_inv h
  rcases igot with hg | hg | hg
  · exfalso
    rcases ibuf with hbuf | hbuf | hbuf
    · rcases ipA with h1 | h1
      · exact hmax _ (CStep.sendA s "age data not found" [] hbuf h1)
      · rcases ipG with h2 | h2
        · exact hmax _ (CStep.sendG s "gender data not found" [] hbuf h2)
        · have hc := reaches_conserves h
          have hini : sendsPending twoFieldFailInit +
              optCount twoFieldFailInit.buf + optCount twoFieldFailInit.got
              = 2 := by decide
          rw [hini] at hc
          simp [sendsPending, optCount, h1, h2, ipN, hbuf, hg] at hc
    · exact hmax _ (CStep.recv s _ hbuf hg)
    · exact hmax _ (CStep.recv s _ hbuf hg)
  · exact ⟨_, hg, by decide⟩
  · exact ⟨_, hg, by decide⟩

/-- A complete run of the two-field-failure scenario: the age error was
sent and received, the gender error was sent into the buffer slot, and no
further step is enabled. -/
def c1FinalState : CState :=
  { buf := some "gender data not found", got := some "age data not found",
    pA := [], pG := [], pN := [] }

/-- C1 witness: the theorem applied to the concrete complete run above. -/
theorem enrich_failure_not_aggregated_w :
    ∃ m, c1FinalState.got = some m ∧
      (mentionsB m "age" && mentionsB m "gender") = false := by
  refine enrich_failure_not_aggregated c1FinalState ?_ ?_
  · have h1 : CStep twoFieldFailInit
        { buf := some "age data not found", got := none, pA := [],
          pG := ["gender data not found"], pN := [] } :=
      CStep.sendA _ "age data not found" [] rfl rfl
    have h2 : CStep
        { buf := some "age data not found", got := none, pA := [],
          pG := ["gender data not found"], pN := [] }
        { buf := none, got := some "age data not found", pA := [],
          pG := ["gender data not found"], pN := [] } :=
      CStep.recv _ "age data not found" rfl rfl
    have h3 : CStep
        { buf := none, got := some "age data not found", pA := [],
          pG := ["gender data not found"], pN := [] } c1FinalState :=
      CStep.sendG _ "gender data not found" [] rfl rfl
    exact ((Relation.ReflTransGen.refl.tail h1).tail h2).tail h3
  · intro t ht
    cases ht <;> simp_all [c1FinalState]

/-- C10: Entry.Enrich writes only the Age, Gender and Nationality fields
of its receiver: whenever it returns, with success and with failure alike,
the ID, Name, Surname and Patronymic fields of the resulting record equal
those of the original receiver. -/
theorem enrich_frame (e : Entry) (name : String) (ra rg rn : ApiResp)
    (e2 : Entry) (res : Option String)
    (h : e.Enrich name ra rg rn = some (e2, res)) :
    e2.ID = e.ID ∧ e2.Name = e.Name ∧ e2.Surname = e.Surname ∧
      e2.Patronymic = e.Patronymic := by
  simp only [Entry.Enrich] at h
  split at h
  · simp at h
  · simp only [Option.some.injEq, Prod.mk.injEq] at h
    obtain ⟨he, -⟩ := h
    subst he
    exact ⟨rfl, rfl, rfl, rfl⟩

/-- C10 witness: the theorem applied to a concrete successful run. -/
theorem enrich_frame_w :
    (⟨0, "Ivan", "Ivanov", "", 40, "male", "RU"⟩ : Entry).ID =
        (⟨0, "Ivan", "Ivanov", "", 0, "", ""⟩ : Entry).ID ∧
      (⟨0, "Ivan", "Ivanov", "", 40, "male", "RU"⟩ : Entry).Name =
        (⟨0, "Ivan", "Ivanov", "", 0, "", ""⟩ : Entry).Name ∧
      (⟨0, "Ivan", "Ivanov", "", 40, "male", "RU"⟩ : Entry).Surname =
        (⟨0, "Ivan", "Ivanov", "", 0, "", ""⟩ : Entry).Surname ∧
      (⟨0, "Ivan", "Ivanov", "", 40, "male", "RU"⟩ : Entry).Patronymic =
        (⟨0, "Ivan", "Ivanov", "", 0, "", ""⟩ : Entry).Patronymic :=
  enrich_frame ⟨0, "Ivan", "Ivanov", "", 0, "", ""⟩ "Ivan"
    (.body [("age", .vNum 40)]) (.body [("gender", .vStr "male")])
    (.body [("country", .vArr [.vObj [("country_id", .vStr "RU")]])])
    ⟨0, "Ivan", "Ivanov", "", 40, "male", "RU"⟩ none rfl

/-- C6: refuted on the code as a code bug evaluated at the failing input.
When the nationality service returns an empty ranked country list, the
goroutine does send the failure to the coordinator, but, the source not
returning after the send, it then reads the first element of the empty
list, which panics and aborts the process: the first-ranked entry is read
even when the list is empty, and Enrich does not return a failure but
crashes (none outcome). -/
theorem nationality_empty_list_panics :
    (natRun (.body [("country", GoVal.vArr [])])).crash = true ∧
    (natRun (.body [("country", GoVal.vArr [])])).sends =
      ["country data not found"] ∧
    Entry.Enrich ⟨0, "Ivan", "Ivanov", "", 0, "", ""⟩ "Ivan"
      (.body [("age", GoVal.vNum 40)]) (.body [("gender", GoVal.vStr "male")])
      (.body [("country", GoVal.vArr [])]) = none :=
  ⟨rfl, rfl, rfl⟩

/-- C4: refuted on the code as a code bug evaluated at the failing input.
On a valid message whose nationality lookup returns an empty ranked list,
ProcessMsg produces neither a store row nor a failure-stream message: the
goroutine panic aborts the process before any terminal outcome, so the
one-terminal-outcome dichotomy fails. -/
theorem processMsg_crash_no_terminal_outcome :
    ProcessMsg (.parsed ⟨"Ivan", "Ivanov", "Ivanovich", ""⟩ "payload")
      (.body [("age", GoVal.vNum 40)]) (.body [("gender", GoVal.vStr "male")])
      (.body [("country", GoVal.vArr [])]) .ok = none := by decide

/-- C5 counterexample: an undecodable payload is forwarded to the failure
topic as the original raw bytes, not as a JSON-encoded record with a
populated error field. -/
theorem processMsg_malformed_not_annotated :
    ProcessMsg (.malformed "not json")
      (.body [("age", GoVal.vNum 40)]) (.body [("gender", GoVal.vStr "male")])
      (.body [("country", GoVal.vArr [GoVal.vObj [("country_id", GoVal.vStr "RU")]])])
      .ok
      = some { failMsgs := [.rawBytes "not json"], created := [] } ∧
    FailPayload.isAnnotated (.rawBytes "not json") = false :=
  ⟨rfl, rfl⟩

/-- C5 (amended): every payload that cannot be decoded into a RawIdentity
is routed to the dead-letter path as the original unmodified payload,
without any error annotation, and no store row is written. -/
theorem processMsg_malformed_forwarded_verbatim (raw : String)
    (ra rg rn : ApiResp) (store : StoreResult) :
    ProcessMsg (.malformed raw) ra rg rn store =
      some { failMsgs := [.rawBytes raw], created := [] } := rfl

/-- C3 counterexample: the pipeline performs no persistence-facing
re-validation after enrichment, so when the gender service returns a
string other than male or female the persisted entry violates the
persistence-facing validity predicate. -/
theorem processMsg_persists_invalid_entry :
    ProcessMsg (.parsed ⟨"Ivan", "Ivanov", "", ""⟩ "payload")
      (.body [("age", GoVal.vNum 40)]) (.body [("gender", GoVal.vStr "x")])
      (.body [("country", GoVal.vArr [GoVal.vObj [("country_id", GoVal.vStr "RU")]])])
      .ok
      = some { failMsgs := [],
               created := [⟨0, "Ivan", "Ivanov", "", 40, "x", "RU"⟩] } ∧
    Entry.IsValid ⟨0, "Ivan", "Ivanov", "", 40, "x", "RU"⟩ =
      some "only “male” or “female” gender is available" :=
  ⟨by decide, by decide⟩

lemma entry_isValid_none_of (e : Entry)
    (hn : e.Name ≠ "" ∧ 2 ≤ e.Name.utf8ByteSize ∧ e.Name.utf8ByteSize ≤ 50 ∧
      matchesNamePattern e.Name = true)
    (hs : e.Surname ≠ "" ∧ 2 ≤ e.Surname.utf8ByteSize ∧
      e.Surname.utf8ByteSize ≤ 50 ∧ matchesNamePattern e.Surname = true)
    (ha : 1 ≤ e.Age ∧ e.Age ≤ 120)
    (hg : e.Gender = "male" ∨ e.Gender = "female")
    (hc : matchesCountryPattern e.Nationality = true) :
    e.IsValid = none := by
  have h1 := (fieldTree_eq_nil_iff e.Name "name cannot be empty"
    "name is too short" "name is too long" "name contains invalid characters").mpr hn
  have h2 := (fieldTree_eq_nil_iff e.Surname "surname cannot be empty"
    "surname is too short" "surname is too long"
    "surname contains invalid characters").mpr hs
  have hage : (if e.Age < 1 ∨ e.Age > 120 then ["age contains invalid data"]
      else []) = [] := if_neg (by omega)
  have hgt : (if e.Gender = "" then ["gender cannot be empty"]
      else if e.Gender ≠ "male" ∧ e.Gender ≠ "female" then
        ["only “male” or “female” gender is available"]
      else []) = [] := by
    rcases hg with h | h <;> rw [h] <;> decide
  have hnat : (if e.Nationality = "" then ["nationality cannot be empty"]
      else if !matchesCountryPattern e.Nationality then
        ["nationality contains invalid data (example: RU, US)"]
      else []) = [] := by
    have hne : e.Nationality ≠ "" := by
      intro h0; rw [h0] at hc; exact absurd hc (by decide)
    rw [if_neg hne]; simp [hc]
  have hcontent : e.errContent = [] := by
    unfold Entry.errContent
    rw [h1, h2, hage, hgt, hnat]
    rfl
  unfold Entry.IsValid
  rw [hcontent]
  rfl

/-- C3 (amended): every entry persisted by ProcessMsg satisfies the
persistence-facing validity predicate provided the three lookups succeed
(no error sent, no panic) with an age between 1 and 120, a gender equal to
male or female and a country code of two uppercase letters; the stream
path itself performs no persistence-facing re-validation, so the invariant
is conditional on the shape of the service responses. -/
theorem processMsg_created_valid
    (m : InMsg) (ra rg rn : ApiResp) (store : StoreResult) (eff : Effects)
    (e : Entry)
    (hA : (ageRun ra).sends = []) (hG : (genderRun rg).sends = [])
    (hN : (natRun rn).sends = []) (hNc : (natRun rn).crash = false)
    (ha1 : 1 ≤ (ageRun ra).write) (ha2 : (ageRun ra).write ≤ 120)
    (hg : (genderRun rg).write = "male" ∨ (genderRun rg).write = "female")
    (hc : matchesCountryPattern (natRun rn).write = true)
    (hrun : ProcessMsg m ra rg rn store = some eff)
    (he : e ∈ eff.created) :
    Entry.IsValid e = none := by
  cases m with
  | malformed raw =>
      simp only [ProcessMsg, Option.some.injEq] at hrun
      subst hrun
      simp at he
  | parsed fn raw =>
      simp only [ProcessMsg] at hrun
      split at hrun <;> rename_i hval
      · simp only [Option.some.injEq] at hrun
        subst hrun
        simp at he
      · have hfv : fn.IsValid = "" := not_ne_iff.mp hval
        cases store with
        | fail serr =>
            simp [Entry.Enrich, hNc, hA, hG, hN] at hrun
            subst hrun
            simp at he
        | ok =>
            simp [Entry.Enrich, hNc, hA, hG, hN] at hrun
            subst hrun
            simp at he
            subst he
            obtain ⟨n1, n2, n3, n4, s1, s2, s3, s4⟩ :=
              (fullName_errContent_eq_nil_iff fn).mp
                ((fullName_isValid_eq_empty_iff fn).mp hfv)
            exact entry_isValid_none_of _ ⟨n1, n2, n3, n4⟩ ⟨s1, s2, s3, s4⟩
              ⟨ha1, ha2⟩ hg hc

/-- C3 witness: the amended theorem applied to a concrete successful run
with well-shaped service responses. -/
theorem processMsg_created_valid_w :
    Entry.IsValid ⟨0, "Ivan", "Ivanov", "", 40, "male", "RU"⟩ = none :=
  processMsg_created_valid
    (.parsed ⟨"Ivan", "Ivanov", "", ""⟩ "payload")
    (.body [("age", GoVal.vNum 40)]) (.body [("gender", GoVal.vStr "male")])
    (.body [("country", GoVal.vArr [GoVal.vObj [("country_id", GoVal.vStr "RU")]])])
    .ok { failMsgs := [], created := [⟨0, "Ivan", "Ivanov", "", 40, "male", "RU"⟩] }
    ⟨0, "Ivan", "Ivanov", "", 40, "male", "RU"⟩
    rfl rfl rfl rfl (by decide) (by decide) (Or.inl rfl) (by decide)
    (by decide) (by simp)

end People

